import Mathlib

/-!
Shallow embedding of the tool-provider orchestration and conversation-loop
layer of the repository (the `Servers` group in
`examples/chatbots/python/server_clients/servers.py` and the `ChatSession`
loop in `e2e_tests/python/chat_session.py`), together with theorems settling
the specification claims about them.

Python exceptions are modelled with `Except PyErr`; a Python `list` is a Lean
`List`; a Bedrock message dict is a `Message` of content `Block`s.
-/

namespace MCP

/-- A tool descriptor, as in `server_clients/tool.py` (`Tool`): name,
description and an input schema (kept opaque as a string). -/
structure Tool where
  name : String
  description : String
  input_schema : String
deriving Repr, DecidableEq

/-- The Python exceptions the embedded code can raise or catch:
`ValueError`, `KeyError`, `IndexError`, and any other `Exception`. -/
inductive PyErr where
  | valueError (msg : String)
  | keyError (key : String)
  | indexError (msg : String)
  | otherError (msg : String)
deriving Repr, DecidableEq

/-- The string rendering `str(e)` of an exception, as used by
`f"Failed to execute tool: {e}"` in `chat_session.py`. -/
def PyErr.msg : PyErr → String
  | .valueError m => m
  | .keyError k => k
  | .indexError m => m
  | .otherError m => m

/-- The dictionary shape of one tool result
(`{"toolUseId": ..., "content": [{"text": ...}, ...], "status": ...}`);
`content` keeps just the text of each text block. -/
structure ToolResultDict where
  toolUseId : String
  content : List String
  status : String
deriving Repr, DecidableEq

/-- One MCP server as seen by the `Servers` group. The base class
`server_clients/server.py` is not part of the sources at hand, so a server is
abstracted by its observable behaviour at the four capability points the
group code calls: whether `__aenter__` succeeds (`initOk`), whether
`__aexit__` returns without raising (`exitOk`), what `list_tools` returns
(`catalog`), and what `execute_tool` does (`execBehavior`, giving either an
exception or a `(content, status)` pair). -/
structure Server where
  name : String
  initOk : Bool
  exitOk : Bool
  catalog : List Tool
  execBehavior : String → String → String → Except PyErr (List String × String)

/-- Modelled from the spec: the base class `Server.execute_tool`
(`server_clients/server.py`, not among the sources) executes the named tool on
the provider and, per §4.1 and the §3 data model, a successful invocation
yields a tool result carrying the invocation's id (`toolUseId`), matched to
the requesting `toolUse` block; failures surface as exceptions. -/
def Server.execute_tool (s : Server) (tool_name tool_use_id arguments : String) :
    Except PyErr ToolResultDict :=
  match s.execBehavior tool_name tool_use_id arguments with
  | .error e => .error e
  | .ok (c, st) => .ok { toolUseId := tool_use_id, content := c, status := st }

/-- Embeds `Server.list_tools`: the provider's current catalog (queried anew on
every call; deterministic here because the catalog is part of the state). -/
def Server.list_tools (s : Server) : List Tool :=
  s.catalog

/-- The loop of `Servers.__aenter__` (`servers.py` lines 14-23): enter each
server in order, accumulating the initialized ones; a failing
`server.__aenter__()` raises out of the loop. The method performs no
`__aexit__` call on the already-entered servers, so on failure they stay
initialized. Returns `(failure, initialized)`: the name of the server whose
initialization raised (if any), and the servers whose `__aenter__` succeeded
and that are still initialized when the method returns. -/
def aenterLoop : List Server → List Server → Option String × List Server
  | [], acc => (none, acc.reverse)
  | s :: rest, acc =>
      if s.initOk then aenterLoop rest (s :: acc)
      else (some s.name, acc.reverse)

/-- Embeds `Servers.__aenter__` on a server list. -/
def Servers.aenter (ss : List Server) : Option String × List Server :=
  aenterLoop ss []

/-- The loop of `Servers.__aexit__` (`servers.py` lines 25-29) applied to an
already-reversed list: each server's `__aexit__` is awaited in turn; there is
no try/except around the call, so a raising `__aexit__` propagates and the
loop stops. Returns `(failure, calls)`: the name of the server whose
shutdown raised (if any) and the names of the servers whose `__aexit__` was
called, in call order (a raising call still counts as called). -/
def aexitLoop : List Server → Option String × List String
  | [] => (none, [])
  | s :: rest =>
      if s.exitOk then
        let r := aexitLoop rest
        (r.1, s.name :: r.2)
      else (some s.name, [s.name])

/-- Embeds `Servers.__aexit__` on a server list: iterates `reversed(self.servers)`. -/
def Servers.aexit (ss : List Server) : Option String × List String :=
  aexitLoop ss.reverse

/-- Embeds `Servers.list_tools` (`servers.py` lines 31-36): start from the empty
list and extend with each server's tools in registration order. -/
def Servers.list_tools (ss : List Server) : List Tool :=
  ss.foldl (fun acc s => acc ++ s.list_tools) []

/-- Embeds `Servers.find_server_with_tool` (`servers.py` lines 38-44): scan the
servers in registration order and return the first whose `list_tools`
contains the name; raise `ValueError` when none does. -/
def Servers.find_server_with_tool : List Server → String → Except PyErr Server
  | [], tool_name =>
      .error (.valueError ("Tool " ++ tool_name ++ " not found in any server"))
  | s :: rest, tool_name =>
      if s.list_tools.any (fun t => t.name = tool_name) then .ok s
      else Servers.find_server_with_tool rest tool_name

/-- The value returned by `Servers.execute_tool`: the dict
`{"toolResult": ...}`. -/
structure ExecuteToolResult where
  toolResult : ToolResultDict
deriving Repr, DecidableEq

/-- Embeds `Servers.execute_tool` (`servers.py` lines 46-67): resolve the server
owning the tool and delegate to it; the whole try-block is guarded by
`except ValueError`, which turns any `ValueError` — from resolution or from
the invocation itself — into the synthetic
`{"toolUseId": ..., "content": [{"text": "No server found with tool: ..."}],
"status": "error"}` result. Other exceptions propagate. -/
def Servers.execute_tool (ss : List Server) (tool_name tool_use_id arguments : String) :
    Except PyErr ExecuteToolResult :=
  let attempt : Except PyErr ExecuteToolResult :=
    match Servers.find_server_with_tool ss tool_name with
    | .error e => .error e
    | .ok server =>
        match server.execute_tool tool_name tool_use_id arguments with
        | .error e => .error e
        | .ok result => .ok { toolResult := result }
  match attempt with
  | .error (.valueError _) =>
      .ok { toolResult :=
              { toolUseId := tool_use_id
                content := ["No server found with tool: " ++ tool_name]
                status := "error" } }
  | r => r

/-- One content block of a Bedrock message: a text block `{"text": ...}`, a
tool-use block `{"toolUse": {"name", "toolUseId", "input"}}`, or a tool-result
block `{"toolResult": {...}}` as produced by `Servers.execute_tool`. -/
inductive Block where
  | text (s : String)
  | toolUse (name toolUseId input : String)
  | toolResult (toolUseId : String) (content : List String) (status : String)
deriving Repr, DecidableEq

/-- Holds exactly for a `{"toolUse": ...}` block (the `"toolUse" in
content_item` test of `chat_session.py` line 38). -/
def Block.isToolUse : Block → Bool
  | .toolUse _ _ _ => true
  | _ => false

/-- The `toolUseId` of a `toolUse` block, `none` for other blocks. -/
def Block.useId : Block → Option String
  | .toolUse _ id _ => some id
  | _ => none

/-- The `toolUseId` of a `toolResult` block, `none` for other blocks. -/
def Block.resultId : Block → Option String
  | .toolResult id _ _ => some id
  | _ => none

/-- Holds exactly for a `toolResult` block. -/
def Block.isToolResult : Block → Bool
  | .toolResult _ _ _ => true
  | _ => false

/-- The ids of the `toolUse` blocks of a content list, in emission order. -/
def toolUseIds (bs : List Block) : List String :=
  bs.filterMap Block.useId

/-- The ids of the `toolResult` blocks of a content list, in order. -/
def toolResultIds (bs : List Block) : List String :=
  bs.filterMap Block.resultId

/-- One conversation message `{"role": ..., "content": [...]}`. -/
structure Message where
  role : String
  content : List Block
deriving Repr, DecidableEq

/-- One model response, reduced to the fields the loop reads:
`llm_response["stopReason"]` and
`llm_response["output"]["message"]["content"]`. -/
structure LlmResponse where
  stopReason : String
  content : List Block
deriving Repr, DecidableEq

/-- Result of the tool-dispatch loop inside
`ChatSession.execute_requested_tools` (lines 36-50): the `tool_responses`
accumulated so far (as `toolResult` blocks), the `(name, toolUseId)` of every
`servers_manager.execute_tool` call made, in call order, and the exception
that broke the loop, if any. -/
structure ToolLoopResult where
  responses : List Block
  dispatched : List (String × String)
  error : Option PyErr
deriving Repr

/-- The `for content_item in ...` loop of `execute_requested_tools`: each
`toolUse` block is dispatched via `Servers.execute_tool`; its dict result
becomes a `toolResult` block; non-`toolUse` blocks are skipped; an exception
aborts the loop. -/
def toolLoop (ss : List Server) : List Block → ToolLoopResult
  | [] => { responses := [], dispatched := [], error := none }
  | b :: rest =>
      match b with
      | .toolUse n id inp =>
          match Servers.execute_tool ss n id inp with
          | .error e => { responses := [], dispatched := [(n, id)], error := some e }
          | .ok r =>
              let t := toolLoop ss rest
              { responses :=
                  .toolResult r.toolResult.toolUseId r.toolResult.content r.toolResult.status
                    :: t.responses
                dispatched := (n, id) :: t.dispatched
                error := t.error }
      | _ => toolLoop ss rest

/-- Embeds `ChatSession.execute_requested_tools` (`chat_session.py` lines 21-58).
For a `tool_use` stop reason it runs the dispatch loop and returns the
synthetic user message `{"role": "user", "content": tool_responses}` (note:
also when `tool_responses` is empty); a `KeyError` or other exception inside
the try-block is re-raised as `ValueError`. For any other stop reason it
returns `None`. The second component is the dispatch trace. -/
def execute_requested_tools (ss : List Server) (resp : LlmResponse) :
    Except PyErr (Option Message) × List (String × String) :=
  if resp.stopReason = "tool_use" then
    let t := toolLoop ss resp.content
    match t.error with
    | some (.keyError k) =>
        (.error (.valueError ("Missing required tool use field: " ++ k)), t.dispatched)
    | some e =>
        (.error (.valueError ("Failed to execute tool: " ++ e.msg)), t.dispatched)
    | none => (.ok (some { role := "user", content := t.responses }), t.dispatched)
  else (.ok none, [])

/-- The lookup `content[0]["text"]` performed by the two `print` calls of
`ChatSession.start` (lines 83-85 and 103-105): `IndexError` on an empty
content list, `KeyError` on a first block that is not a text block. -/
def headText : List Block → Except PyErr String
  | [] => .error (.indexError "list index out of range")
  | .text s :: _ => .ok s
  | _ :: _ => .error (.keyError "text")

/-- What one user utterance leaves behind in `ChatSession.start`:
the messages appended to the conversation buffer for this utterance, the
tool-dispatch trace, the number of `llm_client.get_response` calls made, and
the exception that escaped `start` (if any). -/
structure UtteranceResult where
  appended : List Message
  dispatched : List (String × String)
  modelCalls : Nat
  errored : Option PyErr
deriving Repr

/-- The body of the per-utterance iteration of `ChatSession.start`
(`chat_session.py` lines 70-106), with the model gateway supplied as the two
responses `r1` (first `get_response`, line 79) and `r2` (second
`get_response`, line 97, reached only when tool results were produced):
append the user turn; print `r1`'s leading text (may raise); append the
assistant turn; run `execute_requested_tools`; if it returned a (truthy)
message — which a `tool_use` turn always does, even with empty content —
append it, call the model again, print `r2`'s leading text (may raise) and
append the final assistant turn. -/
def processUtterance (ss : List Server) (r1 r2 : LlmResponse) (userInput : String) :
    UtteranceResult :=
  let userMsg : Message := { role := "user", content := [.text userInput] }
  match headText r1.content with
  | .error e =>
      { appended := [userMsg], dispatched := [], modelCalls := 1, errored := some e }
  | .ok _ =>
      let asst1 : Message := { role := "assistant", content := r1.content }
      let res := execute_requested_tools ss r1
      match res.1 with
      | .error e =>
          { appended := [userMsg, asst1], dispatched := res.2, modelCalls := 1
            errored := some e }
      | .ok none =>
          { appended := [userMsg, asst1], dispatched := res.2, modelCalls := 1
            errored := none }
      | .ok (some toolMsg) =>
          match headText r2.content with
          | .error e =>
              { appended := [userMsg, asst1, toolMsg], dispatched := res.2
                modelCalls := 2, errored := some e }
          | .ok _ =>
              { appended :=
                  [userMsg, asst1, toolMsg, { role := "assistant", content := r2.content }]
                dispatched := res.2, modelCalls := 2, errored := none }

/-! ## Concrete fixtures used by witnesses and counterexamples -/

/-- A sample tool exposed by the time server of the examples. -/
def timeTool : Tool :=
  { name := "get_time", description := "Get the current time", input_schema := "object" }

/-- A sample tool name exposed by two providers at once. -/
def lookupTool : Tool :=
  { name := "lookup", description := "Look something up", input_schema := "object" }

/-- A healthy server exposing `get_time`. -/
def serverTime : Server :=
  { name := "time", initOk := true, exitOk := true, catalog := [timeTool]
    execBehavior := fun _ _ _ => .ok (["4pm"], "success") }

/-- A server whose `__aenter__` raises. -/
def serverBadInit : Server :=
  { name := "bad-init", initOk := false, exitOk := true, catalog := []
    execBehavior := fun _ _ _ => .ok ([], "success") }

/-- A server whose `__aexit__` raises. -/
def serverBadExit : Server :=
  { name := "bad-exit", initOk := true, exitOk := false, catalog := []
    execBehavior := fun _ _ _ => .ok ([], "success") }

/-- First of two servers exposing the duplicate tool name `lookup`. -/
def serverLookupA : Server :=
  { name := "lookup-a", initOk := true, exitOk := true, catalog := [lookupTool]
    execBehavior := fun _ _ _ => .ok (["from A"], "success") }

/-- Second of two servers exposing the duplicate tool name `lookup`. -/
def serverLookupB : Server :=
  { name := "lookup-b", initOk := true, exitOk := true, catalog := [lookupTool]
    execBehavior := fun _ _ _ => .ok (["from B"], "success") }

/-- A server that owns `get_time` but whose invocation raises `ValueError`. -/
def serverFlaky : Server :=
  { name := "flaky", initOk := true, exitOk := true, catalog := [timeTool]
    execBehavior := fun _ _ _ => .error (.valueError "connection closed") }

/-! ## Helper lemmas -/

/-- Unfolding of the `__aenter__` loop at a cons cell. -/
theorem aenterLoop_cons (s : Server) (l acc : List Server) :
    aenterLoop (s :: l) acc =
      if s.initOk then aenterLoop l (s :: acc) else (some s.name, acc.reverse) :=
  rfl

/-- Unfolding of the `__aexit__` loop at a cons cell. -/
theorem aexitLoop_cons (s : Server) (l : List Server) :
    aexitLoop (s :: l) =
      if s.exitOk then ((aexitLoop l).1, s.name :: (aexitLoop l).2)
      else (some s.name, [s.name]) :=
  rfl

/-- Running the `__aenter__` loop into a failing server: the servers before
it must all succeed, the accumulator is flushed, and the failing server's
name is reported. -/
theorem aenterLoop_eq_of_bad (pre post : List Server) (bad : Server)
    (hpre : ∀ s ∈ pre, s.initOk = true) (hbad : bad.initOk = false) :
    ∀ acc : List Server,
      aenterLoop (pre ++ bad :: post) acc = (some bad.name, acc.reverse ++ pre) := by
  induction pre with
  | nil =>
      intro acc
      rw [List.nil_append, aenterLoop_cons, if_neg (by rw [hbad]; simp)]
      simp
  | cons s pre ih =>
      intro acc
      have hs : s.initOk = true := hpre s (List.mem_cons_self s pre)
      have hpre' : ∀ s' ∈ pre, s'.initOk = true := fun s' h => hpre s' (List.mem_cons_of_mem s h)
      rw [List.cons_append, aenterLoop_cons, if_pos hs, ih hpre' (s :: acc)]
      simp

/-- Running the `__aexit__` loop over servers that all shut down cleanly:
every server receives one call, in list order, and nothing raises. -/
theorem aexitLoop_eq_of_ok (l : List Server) (h : ∀ s ∈ l, s.exitOk = true) :
    aexitLoop l = (none, l.map Server.name) := by
  induction l with
  | nil => rfl
  | cons s rest ih =>
      have hs : s.exitOk = true := h s (List.mem_cons_self s rest)
      have h' : ∀ s' ∈ rest, s'.exitOk = true := fun s' hm => h s' (List.mem_cons_of_mem s hm)
      rw [aexitLoop_cons, if_pos hs, ih h']
      rfl

/-- Running the `__aexit__` loop into a raising server: the servers before it
each receive one call, the raising server receives its call, and the loop
stops there — the servers after it receive none. -/
theorem aexitLoop_eq_of_bad (pre post : List Server) (bad : Server)
    (hpre : ∀ s ∈ pre, s.exitOk = true) (hbad : bad.exitOk = false) :
    aexitLoop (pre ++ bad :: post) = (some bad.name, pre.map Server.name ++ [bad.name]) := by
  induction pre with
  | nil =>
      rw [List.nil_append, aexitLoop_cons, if_neg (by rw [hbad]; simp)]
      simp
  | cons s pre ih =>
      have hs : s.exitOk = true := hpre s (List.mem_cons_self s pre)
      have hpre' : ∀ s' ∈ pre, s'.exitOk = true := fun s' h => hpre s' (List.mem_cons_of_mem s h)
      rw [List.cons_append, aexitLoop_cons, if_pos hs, ih hpre']
      rfl

/-! ## C1 — group startup rollback -/

/-- C1, counterexample. On the list `[serverTime, serverBadInit]`,
`Servers.__aenter__` fails (the second server's initialization raises) yet
the first server remains initialized and is never shut down: after the
failed open, a nonempty proper subset of the providers is still
initialized, contradicting the claimed full rollback. -/
theorem c1_counterexample :
    (Servers.aenter [serverTime, serverBadInit]).1 = some "bad-init" ∧
      (Servers.aenter [serverTime, serverBadInit]).2.map Server.name = ["time"] := by
  constructor <;> rfl

/-- C1, amended: when group startup (`Servers.__aenter__`) encounters a
provider whose initialization fails, the failure is surfaced immediately and
every provider that was already successfully initialized simply remains
initialized — the method performs no shutdown of them (no rollback), so a
partial subset of initialized providers survives a failed open. -/
theorem servers_aenter_no_rollback (pre post : List Server) (bad : Server)
    (hpre : ∀ s ∈ pre, s.initOk = true) (hbad : bad.initOk = false) :
    Servers.aenter (pre ++ bad :: post) = (some bad.name, pre) := by
  unfold Servers.aenter
  rw [aenterLoop_eq_of_bad pre post bad hpre hbad []]
  rfl

/-- C1 witness: instantiating the amended theorem on
`[serverTime, serverBadInit]`. -/
theorem servers_aenter_no_rollback_witness :
    Servers.aenter ([serverTime] ++ serverBadInit :: []) = (some "bad-init", [serverTime]) :=
  servers_aenter_no_rollback [serverTime] [] serverBadInit
    (by intro s hs; simp at hs; rw [hs]; rfl) rfl

/-! ## C2 — group teardown order and continue-on-error -/

/-- C2, counterexample. On the list `[serverTime, serverBadExit]`, teardown
starts with the last-registered server `bad-exit`, whose `__aexit__` raises;
the loop has no try/except, so `serverTime` — successfully initialized —
never receives a shutdown call, contradicting the claimed
continue-on-error. -/
theorem c2_counterexample :
    Servers.aexit [serverTime, serverBadExit] = (some "bad-exit", ["bad-exit"]) ∧
      "time" ∉ (Servers.aexit [serverTime, serverBadExit]).2 := by
  constructor
  · rfl
  · decide

/-- C2, amended: group teardown (`Servers.__aexit__`) shuts the providers
down in the exact reverse of registration order, but it does not guard the
individual shutdown calls: when every shutdown succeeds each provider
receives exactly one call, in exact reverse order; when the shutdown of some
provider raises, the loop aborts there and the providers registered before
it receive no shutdown call at all. -/
theorem servers_aexit_reverse_then_abort (ss pre post : List Server) (bad : Server) :
    ((∀ s ∈ ss, s.exitOk = true) →
        Servers.aexit ss = (none, (ss.map Server.name).reverse)) ∧
      (ss = pre ++ bad :: post → (∀ s ∈ post, s.exitOk = true) → bad.exitOk = false →
        Servers.aexit ss = (some bad.name, (post.map Server.name).reverse ++ [bad.name])) := by
  constructor
  · intro h
    unfold Servers.aexit
    rw [aexitLoop_eq_of_ok ss.reverse (fun s hs => h s (List.mem_reverse.mp hs))]
    simp
  · intro hss hpost hbad
    unfold Servers.aexit
    subst hss
    have hrev : (pre ++ bad :: post).reverse = post.reverse ++ bad :: pre.reverse := by
      simp
    rw [hrev, aexitLoop_eq_of_bad post.reverse pre.reverse bad
      (fun s hs => hpost s (List.mem_reverse.mp hs)) hbad]
    simp

/-- C2 witness: both conjuncts of the amended theorem at concrete inputs —
a clean teardown of `[serverTime, serverLookupA]` calls `lookup-a` then
`time`, and a teardown of `[serverTime, serverBadExit]` aborts after the
raising `bad-exit`. -/
theorem servers_aexit_reverse_then_abort_witness :
    Servers.aexit [serverTime, serverLookupA] = (none, ["lookup-a", "time"]) ∧
      Servers.aexit [serverTime, serverBadExit] =
        (some "bad-exit", ["bad-exit"]) := by
  constructor
  · exact (servers_aexit_reverse_then_abort [serverTime, serverLookupA] [] [] serverTime).1
      (by intro s hs; fin_cases hs <;> rfl)
  · exact (servers_aexit_reverse_then_abort [serverTime, serverBadExit]
      [serverTime] [] serverBadExit).2 rfl (by intro s hs; simp at hs) rfl

/-! ## C3 — unknown tool names yield a synthetic inline error result -/

/-- Resolution over servers none of which lists the requested name raises
`ValueError`, as in `servers.py` line 44. -/
theorem find_server_with_tool_eq_of_absent (ss : List Server) (tn : String)
    (h : ∀ s ∈ ss, ∀ t ∈ s.catalog, t.name ≠ tn) :
    Servers.find_server_with_tool ss tn =
      .error (.valueError ("Tool " ++ tn ++ " not found in any server")) := by
  induction ss with
  | nil => rfl
  | cons s rest ih =>
      have habs : s.list_tools.any (fun t => t.name = tn) = false := by
        rw [List.any_eq_false]
        intro t ht
        simpa using h s (List.mem_cons_self s rest) t ht
      have ih' := ih (fun s' hm t ht => h s' (List.mem_cons_of_mem s hm) t ht)
      show (if s.list_tools.any (fun t => t.name = tn) = true
            then Except.ok s else Servers.find_server_with_tool rest tn) = _
      rw [if_neg (by rw [habs]; simp), ih']

/-- C3: for every tool name absent from every server's catalog,
`Servers.execute_tool` does not raise: it returns the synthetic tool result
with `status = "error"`, carrying the caller's `toolUseId` and the
human-readable text `"No server found with tool: <name>"`, which names the
missing tool. -/
theorem execute_tool_unknown_tool_inline_error (ss : List Server) (tn tid args : String)
    (h : ∀ s ∈ ss, ∀ t ∈ s.catalog, t.name ≠ tn) :
    Servers.execute_tool ss tn tid args =
      .ok { toolResult :=
              { toolUseId := tid
                content := ["No server found with tool: " ++ tn]
                status := "error" } } := by
  unfold Servers.execute_tool
  rw [find_server_with_tool_eq_of_absent ss tn h]

/-- C3 witness: asking the time server for the unknown tool
`does_not_exist` yields the synthetic error result. -/
theorem execute_tool_unknown_tool_inline_error_witness :
    Servers.execute_tool [serverTime] "does_not_exist" "tu-1" "42" =
      .ok { toolResult :=
              { toolUseId := "tu-1"
                content := ["No server found with tool: does_not_exist"]
                status := "error" } } :=
  execute_tool_unknown_tool_inline_error [serverTime] "does_not_exist" "tu-1" "42"
    (by intro s hs t ht; fin_cases hs; fin_cases ht; decide)

/-! ## C6 — duplicate tool names route to the first-registered provider -/

/-- C6: `Servers.find_server_with_tool` is a pure function of the server
list (so every call with the same catalogs resolves identically), and it
returns the first server in registration order whose catalog contains the
requested name — whatever servers come later, including ones that also
expose the name, are never selected. -/
theorem find_server_with_tool_first_registered (pre post : List Server) (s : Server)
    (tn : String) (hpre : ∀ p ∈ pre, ∀ t ∈ p.catalog, t.name ≠ tn)
    (hs : ∃ t ∈ s.catalog, t.name = tn) :
    Servers.find_server_with_tool (pre ++ s :: post) tn = .ok s := by
  induction pre with
  | nil =>
      rw [List.nil_append]
      have hany : s.list_tools.any (fun t => t.name = tn) = true := by
        rw [List.any_eq_true]
        obtain ⟨t, ht, hname⟩ := hs
        exact ⟨t, ht, by simp [hname]⟩
      show (if s.list_tools.any (fun t => t.name = tn) = true
            then Except.ok s else Servers.find_server_with_tool post tn) = _
      rw [if_pos hany]
  | cons p pre ih =>
      have habs : p.list_tools.any (fun t => t.name = tn) = false := by
        rw [List.any_eq_false]
        intro t ht
        simpa using hpre p (List.mem_cons_self p pre) t ht
      have ih' := ih (fun p' hm t ht => hpre p' (List.mem_cons_of_mem p hm) t ht)
      rw [List.cons_append]
      show (if p.list_tools.any (fun t => t.name = tn) = true
            then Except.ok p else Servers.find_server_with_tool (pre ++ s :: post) tn) = _
      rw [if_neg (by rw [habs]; simp), ih']

/-- C6 witness: with `serverLookupA` and `serverLookupB` both exposing
`lookup`, resolution picks `serverLookupA`, the first registered. -/
theorem find_server_with_tool_first_registered_witness :
    Servers.find_server_with_tool ([] ++ serverLookupA :: [serverLookupB]) "lookup" =
      .ok serverLookupA :=
  find_server_with_tool_first_registered [] [serverLookupB] serverLookupA "lookup"
    (by intro p hp; simp at hp)
    ⟨lookupTool, by decide, rfl⟩

/-! ## C7 — catalog aggregation is a deterministic concatenation -/

/-- The `extend` loop of `Servers.list_tools`, run from any accumulator,
appends the concatenation of the catalogs. -/
theorem list_tools_foldl (ss : List Server) :
    ∀ acc : List Tool,
      ss.foldl (fun a s => a ++ s.list_tools) acc = acc ++ (ss.map Server.catalog).flatten := by
  induction ss with
  | nil => intro acc; simp
  | cons s rest ih =>
      intro acc
      rw [List.foldl_cons, ih (acc ++ s.list_tools)]
      simp [Server.list_tools]

/-- C7: `Servers.list_tools` returns the concatenation of the servers'
catalogs in registration order, and two calls between which every server's
catalog is unchanged (whatever happened to the rest of the server state)
return the same sequence. -/
theorem list_tools_concat_and_idempotent (ss₁ ss₂ : List Server)
    (h : ss₁.map Server.catalog = ss₂.map Server.catalog) :
    Servers.list_tools ss₁ = (ss₁.map Server.catalog).flatten ∧
      Servers.list_tools ss₁ = Servers.list_tools ss₂ := by
  have e₁ : Servers.list_tools ss₁ = (ss₁.map Server.catalog).flatten := by
    unfold Servers.list_tools
    rw [list_tools_foldl ss₁ []]
    rfl
  have e₂ : Servers.list_tools ss₂ = (ss₂.map Server.catalog).flatten := by
    unfold Servers.list_tools
    rw [list_tools_foldl ss₂ []]
    rfl
  exact ⟨e₁, by rw [e₁, e₂, h]⟩

/-- C7 witness: two calls on the same two-server group agree and equal the
concatenated catalogs. -/
theorem list_tools_concat_and_idempotent_witness :
    Servers.list_tools [serverTime, serverLookupA] = [timeTool, lookupTool] ∧
      Servers.list_tools [serverTime, serverLookupA] =
        Servers.list_tools [serverTime, serverLookupA] := by
  have h := list_tools_concat_and_idempotent [serverTime, serverLookupA]
    [serverTime, serverLookupA] rfl
  exact ⟨h.1, h.2⟩

/-! ## C9 — the blanket `except ValueError` masks invocation failures -/

/-- C9: when resolution succeeds — the tool name is owned by server `s` —
but `s`'s own `execute_tool` raises a `ValueError`, `Servers.execute_tool`
does not propagate it: the blanket `except ValueError` of `servers.py`
converts it into the same synthetic result whose text misleadingly claims
`"No server found with tool: <name>"`. -/
theorem execute_tool_masks_invocation_value_error (ss : List Server) (s : Server)
    (tn tid args msg : String)
    (hfind : Servers.find_server_with_tool ss tn = .ok s)
    (hexec : s.execute_tool tn tid args = .error (.valueError msg)) :
    Servers.execute_tool ss tn tid args =
      .ok { toolResult :=
              { toolUseId := tid
                content := ["No server found with tool: " ++ tn]
                status := "error" } } := by
  unfold Servers.execute_tool
  rw [hfind]
  simp only [hexec]

/-- C9 witness: `serverFlaky` owns `get_time` yet its invocation raises
`ValueError "connection closed"`; the group returns the misleading
"No server found" error result. -/
theorem execute_tool_masks_invocation_value_error_witness :
    Servers.execute_tool [serverFlaky] "get_time" "tu-9" "42" =
      .ok { toolResult :=
              { toolUseId := "tu-9"
                content := ["No server found with tool: get_time"]
                status := "error" } } :=
  execute_tool_masks_invocation_value_error [serverFlaky] serverFlaky
    "get_time" "tu-9" "42" "connection closed" rfl rfl

/-! ## Conversation-loop fixtures -/

/-- A `tool_use` model response that contains no `toolUse` block. -/
def respToolUseNoBlocks : LlmResponse :=
  { stopReason := "tool_use", content := [.text "hi"] }

/-- A final `end_turn` model response with a text answer. -/
def respFinal : LlmResponse :=
  { stopReason := "end_turn", content := [.text "done"] }

/-- A `tool_use` model response whose content starts directly with the
`toolUse` block — no leading text block. -/
def respBareToolUse : LlmResponse :=
  { stopReason := "tool_use", content := [.toolUse "get_time" "tu-1" "42"] }

/-- A well-formed `tool_use` model response: a text block followed by one
`toolUse` block. -/
def respTextThenToolUse : LlmResponse :=
  { stopReason := "tool_use"
    content := [.text "checking", .toolUse "get_time" "tu-8" "42"] }

/-! ## Conversation-loop helper lemmas -/

/-- A successful invocation through the modelled base class carries the
invocation's `toolUseId`. -/
theorem server_execute_tool_ok_id (s : Server) (n id a : String) (d : ToolResultDict)
    (h : s.execute_tool n id a = .ok d) : d.toolUseId = id := by
  unfold Server.execute_tool at h
  cases hb : s.execBehavior n id a with
  | error e => rw [hb] at h; simp at h
  | ok p =>
      obtain ⟨c, st⟩ := p
      rw [hb] at h
      simp at h
      rw [← h]

/-- Every `Except.ok` result of `Servers.execute_tool` — whether it came
from the owning server or from the synthetic `except ValueError` branch —
carries the caller's `toolUseId`. -/
theorem servers_execute_tool_ok_id (ss : List Server) (n id a : String)
    (r : ExecuteToolResult) (h : Servers.execute_tool ss n id a = .ok r) :
    r.toolResult.toolUseId = id := by
  unfold Servers.execute_tool at h
  cases hf : Servers.find_server_with_tool ss n with
  | error e =>
      rw [hf] at h
      cases e with
      | valueError m => simp at h; rw [← h]
      | keyError k => simp at h
      | indexError m => simp at h
      | otherError m => simp at h
  | ok server =>
      simp only [hf] at h
      cases he : server.execute_tool n id a with
      | error e =>
          simp only [he] at h
          cases e with
          | valueError m => simp at h; rw [← h]
          | keyError k => simp at h
          | indexError m => simp at h
          | otherError m => simp at h
      | ok d =>
          simp only [he] at h
          simp at h
          rw [← h]
          exact server_execute_tool_ok_id server n id a d he

/-- Unfolding of the dispatch loop at a `toolUse` block whose dispatch
succeeds. -/
theorem toolLoop_toolUse_ok (ss : List Server) (n id inp : String) (rest : List Block)
    (r : ExecuteToolResult) (h : Servers.execute_tool ss n id inp = .ok r) :
    toolLoop ss (.toolUse n id inp :: rest) =
      { responses := .toolResult r.toolResult.toolUseId r.toolResult.content
          r.toolResult.status :: (toolLoop ss rest).responses
        dispatched := (n, id) :: (toolLoop ss rest).dispatched
        error := (toolLoop ss rest).error } := by
  show (match Servers.execute_tool ss n id inp with
        | .error e =>
            ({ responses := [], dispatched := [(n, id)], error := some e } : ToolLoopResult)
        | .ok r =>
            { responses := .toolResult r.toolResult.toolUseId r.toolResult.content
                r.toolResult.status :: (toolLoop ss rest).responses
              dispatched := (n, id) :: (toolLoop ss rest).dispatched
              error := (toolLoop ss rest).error }) = _
  rw [h]

/-- The dispatch loop skips every block that is not a `toolUse` block. -/
theorem toolLoop_eq_of_no_toolUse (ss : List Server) (bs : List Block)
    (h : ∀ b ∈ bs, b.isToolUse = false) :
    toolLoop ss bs = { responses := [], dispatched := [], error := none } := by
  induction bs with
  | nil => rfl
  | cons b rest ih =>
      have h' : ∀ b' ∈ rest, b'.isToolUse = false :=
        fun b' hm => h b' (List.mem_cons_of_mem b hm)
      cases b with
      | text s => exact ih h'
      | toolUse n id inp =>
          have := h _ (List.mem_cons_self _ rest)
          simp [Block.isToolUse] at this
      | toolResult id c st => exact ih h'

/-- Skipping a prefix of non-`toolUse` blocks leaves the dispatch loop's
result unchanged. -/
theorem toolLoop_append_of_no_toolUse (ss : List Server) (pre xs : List Block)
    (h : ∀ b ∈ pre, b.isToolUse = false) :
    toolLoop ss (pre ++ xs) = toolLoop ss xs := by
  induction pre with
  | nil => rfl
  | cons b rest ih =>
      have h' : ∀ b' ∈ rest, b'.isToolUse = false :=
        fun b' hm => h b' (List.mem_cons_of_mem b hm)
      cases b with
      | text s => rw [List.cons_append]; exact ih h'
      | toolUse n id inp =>
          have := h _ (List.mem_cons_self _ rest)
          simp [Block.isToolUse] at this
      | toolResult id c st => rw [List.cons_append]; exact ih h'

/-- When the dispatch loop finishes without an exception, its collected
responses are all `toolResult` blocks whose ids are, in order, exactly the
ids of the `toolUse` blocks it walked over. -/
theorem toolLoop_result_ids (ss : List Server) (bs : List Block)
    (h : (toolLoop ss bs).error = none) :
    toolResultIds (toolLoop ss bs).responses = toolUseIds bs ∧
      ∀ b ∈ (toolLoop ss bs).responses, b.isToolResult = true := by
  induction bs with
  | nil => exact ⟨rfl, by intro b hb; simp [toolLoop] at hb⟩
  | cons b rest ih =>
      cases b with
      | text s =>
          have step : toolLoop ss (.text s :: rest) = toolLoop ss rest := rfl
          rw [step] at h ⊢
          have := ih h
          simpa [toolUseIds, Block.useId] using this
      | toolResult id c st =>
          have step : toolLoop ss (.toolResult id c st :: rest) = toolLoop ss rest := rfl
          rw [step] at h ⊢
          have := ih h
          simpa [toolUseIds, Block.useId] using this
      | toolUse n id inp =>
          cases hx : Servers.execute_tool ss n id inp with
          | error e =>
              exfalso
              have step : toolLoop ss (.toolUse n id inp :: rest) =
                  { responses := [], dispatched := [(n, id)], error := some e } := by
                show (match Servers.execute_tool ss n id inp with
                      | .error e =>
                          ({ responses := [], dispatched := [(n, id)],
                             error := some e } : ToolLoopResult)
                      | .ok r =>
                          { responses := .toolResult r.toolResult.toolUseId
                              r.toolResult.content r.toolResult.status
                              :: (toolLoop ss rest).responses
                            dispatched := (n, id) :: (toolLoop ss rest).dispatched
                            error := (toolLoop ss rest).error }) = _
                rw [hx]
              rw [step] at h
              simp at h
          | ok r =>
              rw [toolLoop_toolUse_ok ss n id inp rest r hx] at h ⊢
              simp only at h
              obtain ⟨hids, hall⟩ := ih h
              constructor
              · simp only [toolResultIds, toolUseIds, List.filterMap_cons, Block.resultId,
                  Block.useId]
                rw [servers_execute_tool_ok_id ss n id inp r hx]
                simp only [toolResultIds, toolUseIds] at hids
                rw [hids]
              · intro b hb
                rcases List.mem_cons.mp hb with hb | hb
                · rw [hb]; rfl
                · exact hall b hb

/-! ## C5 — one toolResult per toolUse, id-matched, in order -/

/-- C5: whenever `execute_requested_tools` returns a synthetic user message
for a `tool_use` model turn, that message's content consists exclusively of
`toolResult` blocks, exactly one per `toolUse` block of the model's turn,
carrying the same `toolUseId`s in the same order the model emitted them. -/
theorem execute_requested_tools_one_result_per_use (ss : List Server)
    (resp : LlmResponse) (m : Message)
    (h : (execute_requested_tools ss resp).1 = .ok (some m)) :
    m.role = "user" ∧ toolResultIds m.content = toolUseIds resp.content ∧
      ∀ b ∈ m.content, b.isToolResult = true := by
  unfold execute_requested_tools at h
  by_cases hsr : resp.stopReason = "tool_use"
  · rw [if_pos hsr] at h
    cases herr : (toolLoop ss resp.content).error with
    | none =>
        simp only [herr] at h
        simp at h
        obtain ⟨hids, hall⟩ := toolLoop_result_ids ss resp.content herr
        rw [← h]
        exact ⟨rfl, hids, hall⟩
    | some e =>
        simp only [herr] at h
        cases e <;> simp at h
  · rw [if_neg hsr] at h
    simp at h

/-- C5 witness: one text block and one `toolUse` block for `get_time` on the
time server produce the single matching `toolResult "tu-5"`. -/
theorem execute_requested_tools_one_result_per_use_witness :
    (⟨"user", [Block.toolResult "tu-5" ["4pm"] "success"]⟩ : Message).role = "user" ∧
      toolResultIds [Block.toolResult "tu-5" ["4pm"] "success"] =
        toolUseIds [Block.text "let me check", Block.toolUse "get_time" "tu-5" "42"] ∧
      ∀ b ∈ [Block.toolResult "tu-5" ["4pm"] "success"], b.isToolResult = true :=
  execute_requested_tools_one_result_per_use [serverTime]
    { stopReason := "tool_use"
      content := [Block.text "let me check", Block.toolUse "get_time" "tu-5" "42"] }
    ⟨"user", [Block.toolResult "tu-5" ["4pm"] "success"]⟩ rfl

/-! ## C4 — tool_use turn with no toolUse blocks -/

/-- C4, counterexample. On a `tool_use` response whose content is a single
text block (no `toolUse` block at all), the loop raises nothing: it appends
the empty synthetic user turn `{"role": "user", "content": []}` as the third
message and re-invokes the model (two model calls), contradicting the
claimed fatal malformed-response error. -/
theorem c4_counterexample :
    respToolUseNoBlocks.stopReason = "tool_use" ∧
      (∀ b ∈ respToolUseNoBlocks.content, b.isToolUse = false) ∧
      (processUtterance [] respToolUseNoBlocks respFinal "q").errored = none ∧
      (processUtterance [] respToolUseNoBlocks respFinal "q").appended[2]? =
        some { role := "user", content := [] } ∧
      (processUtterance [] respToolUseNoBlocks respFinal "q").modelCalls = 2 := by
  refine ⟨rfl, ?_, rfl, rfl, rfl⟩
  decide

/-- C4, amended: for every model response whose stop reason is `tool_use`
but whose content contains no `toolUse` block (and whose leading content
block is printable text, as is the following response's), the conversation
loop signals no error at all: it appends the empty synthetic user turn
`{"role": "user", "content": []}` — zero `toolResult` blocks — and
re-invokes the model with it, appending the second response as a fourth
turn. -/
theorem processUtterance_empty_tool_turn (ss : List Server) (r1 r2 : LlmResponse)
    (u s1 s2 : String) (rest1 rest2 : List Block)
    (hstop : r1.stopReason = "tool_use")
    (hno : ∀ b ∈ r1.content, b.isToolUse = false)
    (h1 : r1.content = .text s1 :: rest1)
    (h2 : r2.content = .text s2 :: rest2) :
    processUtterance ss r1 r2 u =
      { appended := [{ role := "user", content := [.text u] },
          { role := "assistant", content := r1.content },
          { role := "user", content := [] },
          { role := "assistant", content := r2.content }]
        dispatched := [], modelCalls := 2, errored := none } := by
  have hh1 : headText r1.content = .ok s1 := by rw [h1]; rfl
  have hh2 : headText r2.content = .ok s2 := by rw [h2]; rfl
  have ht : toolLoop ss r1.content = { responses := [], dispatched := [], error := none } :=
    toolLoop_eq_of_no_toolUse ss r1.content hno
  have hex : execute_requested_tools ss r1 =
      (.ok (some { role := "user", content := [] }), []) := by
    unfold execute_requested_tools
    rw [if_pos hstop, ht]
  unfold processUtterance
  simp only [hh1, hex, hh2]

/-- C4 witness: instantiating the amended theorem on the fixture responses. -/
theorem processUtterance_empty_tool_turn_witness :
    processUtterance [] respToolUseNoBlocks respFinal "q" =
      { appended := [{ role := "user", content := [.text "q"] },
          { role := "assistant", content := respToolUseNoBlocks.content },
          { role := "user", content := [] },
          { role := "assistant", content := respFinal.content }]
        dispatched := [], modelCalls := 2, errored := none } :=
  processUtterance_empty_tool_turn [] respToolUseNoBlocks respFinal "q" "hi" "done"
    [] [] rfl (by decide) rfl rfl

/-! ## C8 — four turns per tool-using utterance -/

/-- C8, counterexample. A first response with stop reason `tool_use` and
exactly one `toolUse` block — but no leading text block — and a second
response with stop reason `end_turn` satisfy the claim's hypotheses, yet
`ChatSession.start` crashes printing the assistant message: only 1 turn is
appended for the utterance, not 4. -/
theorem c8_counterexample :
    respBareToolUse.stopReason = "tool_use" ∧
      (respBareToolUse.content.filter Block.isToolUse).length = 1 ∧
      respFinal.stopReason = "end_turn" ∧
      (processUtterance [serverTime] respBareToolUse respFinal "What time?").appended.length
        = 1 ∧
      (processUtterance [serverTime] respBareToolUse respFinal "What time?").appended.length
        ≠ 4 := by
  refine ⟨rfl, rfl, rfl, rfl, ?_⟩
  decide

/-- C8, amended: for every user utterance whose first model response has
stop reason `tool_use` with one `toolUse` block and whose second model
response has stop reason `end_turn`, provided each of the two responses
begins with a printable text block and the dispatch of the requested tool
returns (as it does for owned and for unknown tools alike),
`ChatSession.start` appends exactly 4 turns for that utterance, in the
order: user, assistant (tool_use), user (one toolResult), assistant
(final). -/
theorem processUtterance_four_turns (ss : List Server) (r1 r2 : LlmResponse)
    (u s1 s2 n id inp : String) (mid post rest2 : List Block) (r : ExecuteToolResult)
    (hstop : r1.stopReason = "tool_use")
    (h1 : r1.content = .text s1 :: mid ++ .toolUse n id inp :: post)
    (hmid : ∀ b ∈ mid, b.isToolUse = false)
    (hpost : ∀ b ∈ post, b.isToolUse = false)
    (hexec : Servers.execute_tool ss n id inp = .ok r)
    (hstop2 : r2.stopReason = "end_turn")
    (h2 : r2.content = .text s2 :: rest2) :
    processUtterance ss r1 r2 u =
      { appended := [{ role := "user", content := [.text u] },
          { role := "assistant", content := r1.content },
          { role := "user", content := [.toolResult r.toolResult.toolUseId
              r.toolResult.content r.toolResult.status] },
          { role := "assistant", content := r2.content }]
        dispatched := [(n, id)], modelCalls := 2, errored := none } := by
  have hh1 : headText r1.content = .ok s1 := by rw [h1]; rfl
  have hh2 : headText r2.content = .ok s2 := by rw [h2]; rfl
  have hpre : ∀ b ∈ (Block.text s1 :: mid), b.isToolUse = false := by
    intro b hb
    rcases List.mem_cons.mp hb with hb | hb
    · rw [hb]; rfl
    · exact hmid b hb
  have ht : toolLoop ss r1.content =
      { responses := [.toolResult r.toolResult.toolUseId r.toolResult.content
          r.toolResult.status]
        dispatched := [(n, id)], error := none } := by
    rw [h1, show (Block.text s1 :: mid ++ Block.toolUse n id inp :: post) =
      ((Block.text s1 :: mid) ++ Block.toolUse n id inp :: post) from rfl]
    rw [toolLoop_append_of_no_toolUse ss (Block.text s1 :: mid) _ hpre]
    rw [toolLoop_toolUse_ok ss n id inp post r hexec]
    rw [toolLoop_eq_of_no_toolUse ss post hpost]
  have hex : execute_requested_tools ss r1 =
      (.ok (some { role := "user"
                   content := [.toolResult r.toolResult.toolUseId r.toolResult.content
                     r.toolResult.status] }), [(n, id)]) := by
    unfold execute_requested_tools
    rw [if_pos hstop, ht]
  unfold processUtterance
  simp only [hh1, hex, hh2]

/-- C8 witness: the `get_time` scenario — text then one `toolUse` block,
dispatched on the time server, then a final text answer — appends exactly
the 4 turns. -/
theorem processUtterance_four_turns_witness :
    processUtterance [serverTime] respTextThenToolUse respFinal "What time is it?" =
      { appended := [{ role := "user", content := [.text "What time is it?"] },
          { role := "assistant", content := respTextThenToolUse.content },
          { role := "user", content := [.toolResult "tu-8" ["4pm"] "success"] },
          { role := "assistant", content := respFinal.content }]
        dispatched := [("get_time", "tu-8")], modelCalls := 2, errored := none } :=
  processUtterance_four_turns [serverTime] respTextThenToolUse respFinal
    "What time is it?" "checking" "done" "get_time" "tu-8" "42" [] [] []
    ⟨⟨"tu-8", ["4pm"], "success"⟩⟩ rfl rfl (by decide) (by decide) rfl rfl rfl

/-! ## C10 — responses without a leading text block crash the session -/

/-- C10: for every model response whose first content block has no `"text"`
field — such as a `tool_use` response that begins directly with a `toolUse`
block — `ChatSession.start` raises `KeyError` while printing the assistant
message: the utterance leaves only the user turn in the buffer, no tool is
dispatched, and the session dies even though the stop reason was a valid
`tool_use`. -/
theorem processUtterance_keyerror_before_dispatch (ss : List Server)
    (r1 r2 : LlmResponse) (u : String) (b : Block) (rest : List Block)
    (h1 : r1.content = b :: rest) (hb : ∀ s, b ≠ .text s)
    (hstop : r1.stopReason = "tool_use") :
    processUtterance ss r1 r2 u =
      { appended := [{ role := "user", content := [.text u] }]
        dispatched := [], modelCalls := 1, errored := some (.keyError "text") } := by
  have hh1 : headText r1.content = .error (.keyError "text") := by
    rw [h1]
    cases b with
    | text s => exact absurd rfl (hb s)
    | toolUse n id inp => rfl
    | toolResult id c st => rfl
  unfold processUtterance
  simp only [hh1]

/-- C10 witness: the bare `toolUse` response crashes before dispatch,
leaving a single appended turn. -/
theorem processUtterance_keyerror_before_dispatch_witness :
    processUtterance [serverTime] respBareToolUse respFinal "What time is it?" =
      { appended := [{ role := "user", content := [.text "What time is it?"] }]
        dispatched := [], modelCalls := 1, errored := some (.keyError "text") } :=
  processUtterance_keyerror_before_dispatch [serverTime] respBareToolUse respFinal
    "What time is it?" (.toolUse "get_time" "tu-1" "42") [] rfl
    (fun s h => Block.noConfusion h) rfl

end MCP
